import Mathlib

/-!
Verification of the cql-stress integration-test harness (`tools/` scripts).

The development shallowly embeds the Python sources:
  * `tools/util/cassandra_stress.py` — argument building and keyspace naming,
  * `tools/test_hdr_logging.py`      — the HDR log validator,
  * `tools/util/scylla_docker.py` and `tools/test_with_scylla.py`
                                     — teardown policy and readiness polling,
  * `tools/test_cs_write_and_validate.py` — the cross-validation scenario.

Modelling conventions:
  * A text file is `Option (List String)`: `none` is a missing file, and the
    list holds the lines returned by `readlines` (without trailing newlines;
    every check performed by the code — substring containment, comma
    splitting of interior fields, whitespace stripping, numeric parsing of
    whitespace-trimmed fields — is insensitive to the trailing newline).
    A zero-size file reads as the empty list of lines.
  * Python float values that the validator parses and compares are modelled
    as exact fractions (`Frac`, an integer numerator with a positive power
    of ten denominator as produced by decimal parsing); comparisons are by
    cross multiplication.  `float(...)` on a plain decimal literal with
    optional sign and optional fractional part is modelled by `parseFrac`;
    exotic float syntax (exponents, inf/nan, underscores) is outside the
    model.  A Python `ValueError` from `float` and an `IndexError` from a
    missing field both land in an enclosing handler that returns `False`,
    so both are modelled as the validator answering `false`.
  * Subprocesses are opaque: a scenario is modelled by the list of tool
    invocations it issues, and scoped container teardown by the decision
    function of the `finally` block.
-/

/-! ### Basic character-list utilities (models of the Python string operations) -/

/-- Value of a digit list, as used after `Char.isDigit` filtering:
`digitsVal ['4','2'] = 42`. -/
def digitsVal (l : List Char) : Nat :=
  l.foldl (fun a c => a * 10 + (c.toNat - 48)) 0

/-- Strip leading and trailing whitespace (model of Python `str.strip`,
which `float` also applies to its argument). -/
def trimWs (l : List Char) : List Char :=
  ((l.dropWhile Char.isWhitespace).reverse.dropWhile Char.isWhitespace).reverse

/-- Model of Python `str.split(sep)` for a one-character separator:
`splitOnChar ',' "a,,b" = ["a", "", "b"]` and a string without the
separator yields a single chunk. -/
def splitOnChar (sep : Char) : List Char → List (List Char)
  | [] => [[]]
  | c :: rest =>
    let r := splitOnChar sep rest
    if c == sep then [] :: r
    else
      match r with
      | [] => [[c]]
      | h :: t => (c :: h) :: t

/-- Model of Python `needle in hay` (substring containment). -/
def containsSub (needle : List Char) : List Char → Bool
  | [] => needle.isEmpty
  | c :: rest => needle.isPrefixOf (c :: rest) || containsSub needle rest

/-! ### Exact fractions standing for the Python float values -/

/-- An unnormalised fraction `num / den`; every fraction built by the model
has a positive denominator (`1` or a power of ten). -/
structure Frac where
  num : Int
  den : Nat
deriving DecidableEq

/-- Comparison a ≤ b by cross multiplication. -/
def fLe (a b : Frac) : Bool :=
  decide (a.num * (b.den : Int) ≤ b.num * (a.den : Int))

/-- Comparison a < b by cross multiplication. -/
def fLt (a b : Frac) : Bool :=
  decide (a.num * (b.den : Int) < b.num * (a.den : Int))

/-- Value equality (`2/2` equals `1/1`, as Python `==` on numbers). -/
def fEq (a b : Frac) : Bool :=
  decide (a.num * (b.den : Int) = b.num * (a.den : Int))

/-- Sum of two fractions. -/
def fAdd (a b : Frac) : Frac :=
  ⟨a.num * b.den + b.num * a.den, a.den * b.den⟩

/-- Difference of two fractions. -/
def fSub (a b : Frac) : Frac :=
  ⟨a.num * b.den - b.num * a.den, a.den * b.den⟩

/-- Test whether the absolute value of a exceeds b, the validator's drift test. -/
def fAbsGt (a b : Frac) : Bool :=
  decide (b.num * (a.den : Int) < (a.num.natAbs : Int) * b.den)

/-- The fraction `1`. -/
def fracOne : Frac := ⟨1, 1⟩

/-- The validator's tolerance, `0.1` seconds. -/
def tolFrac : Frac := ⟨1, 10⟩

/-- Parse an unsigned decimal literal: digits with an optional single `.`
and fractional digits; at least one digit must be present. -/
def parseUnsignedFrac (l : List Char) : Option Frac :=
  let ip := l.takeWhile Char.isDigit
  let rest := l.dropWhile Char.isDigit
  match rest with
  | [] => if ip.isEmpty then none else some ⟨(digitsVal ip : Int), 1⟩
  | '.' :: fp =>
    if fp.all Char.isDigit && !(ip.isEmpty && fp.isEmpty) then
      some ⟨(digitsVal ip * 10 ^ fp.length + digitsVal fp : Int), 10 ^ fp.length⟩
    else none
  | _ => none

/-- Model of Python `float(s)` on the decimal literals the harness produces:
whitespace is stripped, an optional sign is honoured, and the digits are
read exactly; failure is `none` (Python raises `ValueError`). -/
def parseFrac (l : List Char) : Option Frac :=
  match trimWs l with
  | '-' :: rest => (parseUnsignedFrac rest).map (fun f => ⟨-f.num, f.den⟩)
  | '+' :: rest => parseUnsignedFrac rest
  | rest => parseUnsignedFrac rest

/-! ### The HDR log validator (`check_hdr_file_valid` in `tools/test_hdr_logging.py`) -/

/-- The fixed tag marker every data row must start with. -/
def tagChars : List Char := "Tag=".data

/-- The four expected header substrings, in the fixed order checked. -/
def expectedHeaders : List String :=
  ["Logged with Cql-stress", "#[StartTime:", "#[BaseTime:", "#[MaxValueDivisor:"]

/-- The header loop of the validator: header line `i` must contain the
`i`-th expected substring.  (The code's `i >= len(lines)` guard is
unreachable because the caller has already ensured at least 5 lines.) -/
def hdr_headers_ok (lines : List String) : Bool :=
  containsSub "Logged with Cql-stress".data (lines.getD 0 "").data &&
  containsSub "#[StartTime:".data (lines.getD 1 "").data &&
  containsSub "#[BaseTime:".data (lines.getD 2 "").data &&
  containsSub "#[MaxValueDivisor:".data (lines.getD 3 "").data

/-- Python `not row.strip()`: the row is blank (only whitespace). -/
def isBlankRow (row : String) : Bool :=
  row.data.all Char.isWhitespace

/-- Python `row.split(',')`. -/
def rowParts (row : String) : List (List Char) :=
  splitOnChar ',' row.data

/-- The data-row loop of the validator.  `total` is the number of data rows
(blank ones included), `i` the current index, `lastTs` the `last_timestamp`
variable.  A missing field (`IndexError`) and a failed `float`
(`ValueError`) both return `false` through the handlers in the code. -/
def check_data_rows (expInt : Frac) (total : Nat) : Nat → Option Frac → List String → Bool
  | _, _, [] => true
  | i, lastTs, row :: rest =>
    if isBlankRow row then check_data_rows expInt total (i + 1) lastTs rest
    else
      let parts := rowParts row
      let isLast := decide (i = total - 1)
      if !isLast && decide (parts.length < 4) then false
      else if !(tagChars.isPrefixOf (parts.headD [])) then false
      else
        match parts[1]? with
        | none => false
        | some f1 =>
          match parseFrac f1 with
          | none => false
          | some ts =>
            match parts[2]? with
            | none => false
            | some f2 =>
              match parseFrac f2 with
              | none => false
              | some iv =>
                if decide (i = 0) && (fLt ts (fSub expInt tolFrac) || fLt (fAdd expInt tolFrac) ts) then
                  false
                else if (match lastTs with
                         | some l => !isLast && fAbsGt (fSub ts (fAdd l expInt)) tolFrac
                         | none => false) then
                  false
                else if !isLast && fAbsGt (fSub iv expInt) tolFrac then false
                else check_data_rows expInt total (i + 1) (some ts) rest

/-- The validator `check_hdr_file_valid(file_path, expected_interval)` from
`tools/test_hdr_logging.py`.  `none` is a missing file; a zero-size file
reads as no lines.  The `lines.length ≤ 4` acceptance branch is kept from
the code even though the earlier `< 5` rejection makes it unreachable. -/
def check_hdr_file_valid (file : Option (List String)) (expInt : Frac) : Bool :=
  match file with
  | none => false
  | some lines =>
    if lines.length = 0 then false
    else if lines.length < 5 then false
    else if !(hdr_headers_ok lines) then false
    else if lines.length ≤ 4 then true
    else check_data_rows expInt (lines.drop 4).length 0 none (lines.drop 4)

/-! ### Spec-side row predicates (for comparison against `check_data_rows`) -/

/-- Structural health of one data row: blank rows are fine; otherwise the
first field starts with `Tag=`, a non-last row has at least 4
comma-separated fields, and fields 2 and 3 parse as numbers. -/
def rowStructOk (isLast : Bool) (row : String) : Bool :=
  if isBlankRow row then true
  else
    let parts := rowParts row
    tagChars.isPrefixOf (parts.headD []) &&
    (isLast || decide (4 ≤ parts.length)) &&
    (match parts[1]? with | none => false | some f => (parseFrac f).isSome) &&
    (match parts[2]? with | none => false | some f => (parseFrac f).isSome)

/-- Structural health of all data rows, `i` being the index of the first. -/
def rowsStructOk (total : Nat) : Nat → List String → Bool
  | _, [] => true
  | i, row :: rest => rowStructOk (decide (i = total - 1)) row && rowsStructOk total (i + 1) rest

/-- Modelled from the spec's words (the numeric conditions of the claim):
with tolerance 0.1 s, the first data row's timestamp lies within the
tolerance of the expected interval, every subsequent non-last row's
timestamp lies within the tolerance of the previous row's timestamp plus
the expected interval, and every non-last row's reported interval length
lies within the tolerance of the expected interval.  Rows whose fields do
not parse make the predicate false. -/
def rowsClaimOk (expInt : Frac) (total : Nat) : Nat → Option Frac → List String → Bool
  | _, _, [] => true
  | i, lastTs, row :: rest =>
    if isBlankRow row then rowsClaimOk expInt total (i + 1) lastTs rest
    else
      match (rowParts row)[1]? with
      | none => false
      | some f1 =>
        match parseFrac f1 with
        | none => false
        | some ts =>
          match (rowParts row)[2]? with
          | none => false
          | some f2 =>
            match parseFrac f2 with
            | none => false
            | some iv =>
              (!decide (i = 0) || (fLe (fSub expInt tolFrac) ts && fLe ts (fAdd expInt tolFrac))) &&
              (match lastTs with
               | none => true
               | some l => decide (i = total - 1) || !(fAbsGt (fSub ts (fAdd l expInt)) tolFrac)) &&
              (decide (i = total - 1) || !(fAbsGt (fSub iv expInt) tolFrac)) &&
              rowsClaimOk expInt total (i + 1) (some ts) rest

/-! ### Concrete HDR log files used as test vectors -/

/-- A valid 4-line header. -/
def hdrHeaderLines : List String :=
  ["Logged with Cql-stress v0.1",
   "#[StartTime: 1700000000 (seconds)",
   "#[BaseTime: 0.0 (seconds)",
   "#[MaxValueDivisor: 1000000.0"]

/-- A synthetically constructed valid log: header plus 5 rows spaced
exactly at the expected interval 1. -/
def syntheticHdrLog : List String :=
  hdrHeaderLines ++
  ["Tag=write,1,1,0",
   "Tag=write,2,1,0",
   "Tag=write,3,1,0",
   "Tag=write,4,1,0",
   "Tag=write,5,1,0"]

/-! ### Argument building (`tools/util/cassandra_stress.py`) -/

/-- The runtime-argument record shared by all scenarios. -/
structure CSCliRuntimeArguments where
  workload_size : Nat
  concurrency : Nat
  hdr_log_file : Option String
  log_interval : Frac
  throttle : Option String
deriving DecidableEq

/-- Python truthiness of an optional string: `None` and the empty string
are falsy. -/
def optTruthy : Option String → Bool
  | none => false
  | some s => !(s == "")

/-- Rendering of the logging interval into the argument string (the
model's stand-in for Python's number formatting). -/
def fracStr (q : Frac) : String :=
  toString q.num ++ "/" ++ toString q.den

/-- The optional `throttle=<throttle>` extension of the rate clause,
guarded by Python truthiness of the `throttle` field. -/
def throttle_clause (t : Option String) : List String :=
  match t with
  | none => []
  | some s => if s == "" then [] else ["throttle=" ++ s]

/-- The optional logging clause: present only for a truthy
`hdr_log_file`, with the `interval=` sub-clause only when the interval
differs from the default of 1. -/
def log_clause (ra : CSCliRuntimeArguments) : List String :=
  match ra.hdr_log_file with
  | none => []
  | some f =>
    if f == "" then []
    else
      ["-log", "hdrfile=" ++ f] ++
      (if fEq ra.log_interval fracOne then [] else ["interval=" ++ fracStr ra.log_interval])

/-- Model of `prepare_args(command, node_ip, keyspace, runtime_args)`: the argument
vector for a keyspace-mode operation. -/
def prepare_args (command node_ip keyspace : String) (ra : CSCliRuntimeArguments) : List String :=
  [command, "no-warmup", "n=" ++ toString ra.workload_size, "-node", node_ip] ++
  ["-rate", "threads=" ++ toString ra.concurrency] ++ throttle_clause ra.throttle ++
  ["-schema", "keyspace=" ++ keyspace] ++
  log_clause ra

/-! ### Keyspace naming (`generate_random_keyspaces`) -/

/-- The pair of per-run keyspace names. -/
structure Keyspaces where
  ks_cassandra : String
  ks_cqlstress : String
deriving DecidableEq

/-- Model of `generate_random_keyspaces`: `r` is the draw of
`random.randint(0, 100000)` and `now` the formatted current time. -/
def generate_random_keyspaces (r : Nat) (now : String) : Keyspaces :=
  ⟨"ks_cassandra_" ++ (toString r ++ "_" ++ now),
   "ks_cqlstress_" ++ (toString r ++ "_" ++ now)⟩

/-! ### The write-and-validate scenario (`tools/test_cs_write_and_validate.py`) -/

/-- The two stress-tool variants. -/
inductive StressTool
  | cassandra_stress
  | cql_stress
deriving DecidableEq

/-- One blocking tool invocation issued by a scenario (`check=True`:
a non-zero exit aborts the scenario, so the scenario succeeds only if
every listed invocation succeeds). -/
structure StressInvocation where
  tool : StressTool
  command : String
  keyspace : String
deriving DecidableEq

/-- The exact sequence of invocations issued by `run` in
`tools/test_cs_write_and_validate.py`, in program order. -/
def test_cs_write_and_validate_run (ks_cassandra ks_cqlstress : String) : List StressInvocation :=
  [⟨.cassandra_stress, "write", ks_cassandra⟩,
   ⟨.cql_stress, "read", ks_cassandra⟩,
   ⟨.cql_stress, "write", ks_cqlstress⟩,
   ⟨.cql_stress, "read", ks_cqlstress⟩]

/-! ### Container teardown policy and readiness polling -/

/-- Outcome of the scoped body of `scylla_docker`: either it ran to the
point just before normal exit (where `success = True` is assigned) or it
raised earlier, leaving the flag unset. -/
inductive BodyOutcome
  | completed
  | raised
deriving DecidableEq

/-- The success flag as the `finally` block observes it. -/
def scylla_success_flag : BodyOutcome → Bool
  | .completed => true
  | .raised => false

/-- The teardown decision of the `finally` block in `scylla_docker`
(`tools/util/scylla_docker.py` and `tools/test_with_scylla.py` share this
logic): `"always"` tears down, `"on-success"` follows the success flag,
any other policy (in particular `"never"`) does not tear down. -/
def teardown_decision (teardown_behavior : String) (success : Bool) : Bool :=
  if teardown_behavior = "always" then true
  else if teardown_behavior = "on-success" then success
  else false

/-- Whether a run of the scoped block with the given body outcome invokes
teardown, the policy being evaluated once at scope exit. -/
def scylla_docker_teardown (teardown_behavior : String) (o : BodyOutcome) : Bool :=
  teardown_decision teardown_behavior (scylla_success_flag o)

/-- What a single readiness attempt of `wait_until_scylla_responds` would
do: succeed, fail with an ordinary exception, or raise `KeyboardInterrupt`. -/
inductive AttemptResult
  | ok
  | failed
  | interrupt
deriving DecidableEq

/-- How the polling loop ends. -/
inductive WaitOutcome
  | responded
  | timedOut
  | interrupted
deriving DecidableEq

/-- Model of `wait_until_scylla_responds(container_id, max_attempts)`, driven by the
list of the results the successive attempts would produce (the list's
length is the configured maximum attempt count): return on the first
success, re-raise a `KeyboardInterrupt` immediately, sleep and retry on
any other exception, and raise the distinct "didn't start responding"
error once the attempts are exhausted. -/
def wait_until_scylla_responds : List AttemptResult → WaitOutcome
  | [] => .timedOut
  | .ok :: _ => .responded
  | .interrupt :: _ => .interrupted
  | .failed :: rest => wait_until_scylla_responds rest

/-- Number of query attempts the loop actually starts. -/
def wait_attempts : List AttemptResult → Nat
  | [] => 0
  | .failed :: rest => wait_attempts rest + 1
  | _ :: _ => 1

/-! ### Helper lemmas -/

lemma decide_le_eq_not_decide_lt (m n : Nat) : decide (m ≤ n) = !decide (n < m) := by
  rw [← decide_not]
  exact decide_eq_decide.mpr not_lt.symm

lemma fLe_eq_not_fLt (a b : Frac) : fLe a b = !fLt b a := by
  unfold fLe fLt
  rw [← decide_not]
  exact decide_eq_decide.mpr not_lt.symm

set_option maxHeartbeats 1600000 in
lemma check_data_rows_eq_struct_claim (expInt : Frac) (total : Nat) :
    ∀ (rows : List String) (i : Nat) (lastTs : Option Frac),
    check_data_rows expInt total i lastTs rows =
      (rowsStructOk total i rows && rowsClaimOk expInt total i lastTs rows) := by
  intro rows
  induction rows with
  | nil => intro i lastTs; rfl
  | cons row rest ih =>
    intro i lastTs
    by_cases hb : isBlankRow row = true
    · simp [check_data_rows, rowsStructOk, rowsClaimOk, rowStructOk, hb, ih]
    · rw [Bool.not_eq_true] at hb
      cases hp1 : (rowParts row)[1]? with
      | none =>
        simp [check_data_rows, rowsStructOk, rowsClaimOk, rowStructOk, hb, hp1]
      | some f1 =>
        cases hq1 : parseFrac f1 with
        | none =>
          simp [check_data_rows, rowsStructOk, rowsClaimOk, rowStructOk, hb, hp1, hq1]
        | some ts =>
          cases hp2 : (rowParts row)[2]? with
          | none =>
            simp [check_data_rows, rowsStructOk, rowsClaimOk, rowStructOk, hb, hp1, hq1, hp2]
          | some f2 =>
            cases hq2 : parseFrac f2 with
            | none =>
              simp [check_data_rows, rowsStructOk, rowsClaimOk, rowStructOk, hb, hp1, hq1, hp2, hq2]
            | some iv =>
              rcases lastTs with _ | l
              · cases htag : tagChars.isPrefixOf ((rowParts row).head?.getD []) <;>
                cases h4 : decide ((rowParts row).length < 4) <;>
                cases hx1 : fLt ts (fSub expInt tolFrac) <;>
                cases hx2 : fLt (fAdd expInt tolFrac) ts <;>
                cases hiv : fAbsGt (fSub iv expInt) tolFrac <;>
                by_cases hL : i = total - 1 <;> by_cases hz : i = 0 <;>
                simp_all [check_data_rows, rowsStructOk, rowsClaimOk, rowStructOk,
                          fLe_eq_not_fLt, decide_le_eq_not_decide_lt, Bool.and_assoc]
              · cases hg : fAbsGt (fSub ts (fAdd l expInt)) tolFrac <;>
                cases htag : tagChars.isPrefixOf ((rowParts row).head?.getD []) <;>
                cases h4 : decide ((rowParts row).length < 4) <;>
                cases hx1 : fLt ts (fSub expInt tolFrac) <;>
                cases hx2 : fLt (fAdd expInt tolFrac) ts <;>
                cases hiv : fAbsGt (fSub iv expInt) tolFrac <;>
                by_cases hL : i = total - 1 <;> by_cases hz : i = 0 <;>
                simp_all [check_data_rows, rowsStructOk, rowsClaimOk, rowStructOk,
                          fLe_eq_not_fLt, decide_le_eq_not_decide_lt, Bool.and_assoc]

lemma check_hdr_some_iff (lines : List String) (expInt : Frac) :
    check_hdr_file_valid (some lines) expInt = true ↔
      (5 ≤ lines.length ∧ hdr_headers_ok lines = true ∧
       rowsStructOk (lines.drop 4).length 0 (lines.drop 4) = true ∧
       rowsClaimOk expInt (lines.drop 4).length 0 none (lines.drop 4) = true) := by
  unfold check_hdr_file_valid
  by_cases h0 : lines.length = 0
  · simp [h0]
  · by_cases h5 : lines.length < 5
    · simp [h0, h5]
    · by_cases hh : hdr_headers_ok lines = true
      · have h4 : ¬ lines.length ≤ 4 := by omega
        simp [h0, h5, hh, h4, check_data_rows_eq_struct_claim]
        omega
      · rw [Bool.not_eq_true] at hh
        simp [h0, h5, hh]

lemma rowsStructOk_getD (total : Nat) :
    ∀ (rows : List String) (i : Nat), rowsStructOk total i rows = true →
    ∀ j, j < rows.length → rowStructOk (decide (i + j = total - 1)) (rows.getD j "") = true := by
  intro rows
  induction rows with
  | nil => intro i _ j hj; simp at hj
  | cons row rest ih =>
    intro i h j hj
    rw [rowsStructOk, Bool.and_eq_true] at h
    cases j with
    | zero => simpa using h.1
    | succ j' =>
      have harith : i + (j' + 1) = (i + 1) + j' := by omega
      rw [List.getD_cons_succ, harith]
      exact ih (i + 1) h.2 j' (by simpa using hj)

lemma append_ne_of_head_ne (p q t : String) (c : Char)
    (hp : p.data.head? = some c) (ht : t.data.head? ≠ some c) : p ++ q ≠ t := by
  intro he
  apply ht
  rw [← he]
  have hd : (p ++ q).data = p.data ++ q.data := String.data_append p q
  rw [hd]
  cases hpd : p.data with
  | nil => rw [hpd] at hp; exact absurd hp (by simp)
  | cons a as =>
    rw [hpd] at hp
    simpa using hp

lemma count_rate_throttle_clause (t : Option String) :
    (throttle_clause t).count "-rate" = 0 := by
  cases t with
  | none => rfl
  | some s =>
    unfold throttle_clause
    by_cases hs : (s == "") = true
    · simp [hs]
    · rw [Bool.not_eq_true] at hs
      simp [hs, List.count_cons, List.count_nil]
      exact append_ne_of_head_ne "throttle=" s "-rate" 't' (by decide) (by decide)

lemma count_rate_log_clause (ra : CSCliRuntimeArguments) :
    (log_clause ra).count "-rate" = 0 := by
  unfold log_clause
  cases hf : ra.hdr_log_file with
  | none => rfl
  | some f =>
    by_cases hs : (f == "") = true
    · simp [hs]
    · rw [Bool.not_eq_true] at hs
      by_cases hq : fEq ra.log_interval fracOne = true
      · simp [hs, hq, List.count_cons, List.count_nil]
        exact append_ne_of_head_ne "hdrfile=" f "-rate" 'h' (by decide) (by decide)
      · rw [Bool.not_eq_true] at hq
        simp [hs, hq, List.count_cons, List.count_nil]
        refine ⟨?_, ?_⟩ <;>
        first
        | exact append_ne_of_head_ne "hdrfile=" f "-rate" 'h' (by decide) (by decide)
        | exact append_ne_of_head_ne "interval=" (fracStr ra.log_interval) "-rate" 'i' (by decide) (by decide)

lemma rowStructOk_fields (row : String) (hb : isBlankRow row = false)
    (h : rowStructOk true row = true) :
    ∃ f1 ts f2 iv, (rowParts row)[1]? = some f1 ∧ parseFrac f1 = some ts ∧
      (rowParts row)[2]? = some f2 ∧ parseFrac f2 = some iv := by
  rw [rowStructOk] at h
  simp only [hb, Bool.false_eq_true, if_false] at h
  rcases hp1 : (rowParts row)[1]? with _ | f1
  · simp [hp1] at h
  · rcases hq1 : parseFrac f1 with _ | ts
    · simp [hp1, hq1] at h
    · rcases hp2 : (rowParts row)[2]? with _ | f2
      · simp [hp2] at h
      · rcases hq2 : parseFrac f2 with _ | iv
        · simp [hp2, hq2] at h
        · exact ⟨f1, ts, f2, iv, rfl, hq1, rfl, hq2⟩

lemma rowsStructOk_replace_last (total : Nat) (r r' : String) (hr' : rowStructOk true r' = true) :
    ∀ (init : List String) (i : Nat), i + init.length = total - 1 →
    rowsStructOk total i (init ++ [r]) = true → rowsStructOk total i (init ++ [r']) = true := by
  intro init
  induction init with
  | nil =>
    intro i hi _
    have hL : i = total - 1 := by simpa using hi
    simp [rowsStructOk, hL, hr']
  | cons row rest ih =>
    intro i hi h
    rw [List.cons_append, rowsStructOk, Bool.and_eq_true] at h
    rw [List.cons_append, rowsStructOk, Bool.and_eq_true]
    exact ⟨h.1, ih (i + 1) (by simp at hi; omega) h.2⟩

lemma rowsClaimOk_replace_last (expInt : Frac) (total : Nat) (r r' : String)
    (hr' : rowStructOk true r' = true) :
    ∀ (init : List String) (i : Nat) (lastTs : Option Frac),
    i + init.length = total - 1 → 0 < i + init.length →
    rowsClaimOk expInt total i lastTs (init ++ [r]) = true →
    rowsClaimOk expInt total i lastTs (init ++ [r']) = true := by
  intro init
  induction init with
  | nil =>
    intro i lastTs hi hpos _
    have hL : i = total - 1 := by simpa using hi
    have hz' : ¬ (total - 1 = 0) := by omega
    by_cases hb : isBlankRow r' = true
    · simp [rowsClaimOk, hb]
    · rw [Bool.not_eq_true] at hb
      obtain ⟨f1, ts, f2, iv, hp1, hq1, hp2, hq2⟩ := rowStructOk_fields r' hb hr'
      cases lastTs <;> simp [rowsClaimOk, hb, hp1, hq1, hp2, hq2, hL, hz']
  | cons row rest ih =>
    intro i lastTs hi hpos h
    rw [List.cons_append] at h ⊢
    have hi' : (i + 1) + rest.length = total - 1 := by simp at hi; omega
    have hpos' : 0 < (i + 1) + rest.length := by omega
    by_cases hb : isBlankRow row = true
    · simp only [rowsClaimOk, hb, if_true] at h ⊢
      exact ih (i + 1) lastTs hi' hpos' h
    · rw [Bool.not_eq_true] at hb
      rcases hp1 : (rowParts row)[1]? with _ | f1
      · simp [rowsClaimOk, hb, hp1] at h
      · rcases hq1 : parseFrac f1 with _ | ts
        · simp [rowsClaimOk, hb, hp1, hq1] at h
        · rcases hp2 : (rowParts row)[2]? with _ | f2
          · simp [rowsClaimOk, hb, hp1, hq1, hp2] at h
          · rcases hq2 : parseFrac f2 with _ | iv
            · simp [rowsClaimOk, hb, hp1, hq1, hp2, hq2] at h
            · simp [rowsClaimOk, hb, hp1, hq1, hp2, hq2] at h ⊢
              exact ⟨h.1, ih (i + 1) (some ts) hi' hpos' h.2⟩

lemma hdr_headers_ok_append (lines : List String) (x : String) (h4 : 4 ≤ lines.length) :
    hdr_headers_ok (lines ++ [x]) = hdr_headers_ok lines := by
  unfold hdr_headers_ok
  rw [List.getD_append _ _ _ _ (by omega), List.getD_append _ _ _ _ (by omega),
      List.getD_append _ _ _ _ (by omega), List.getD_append _ _ _ _ (by omega)]

/-- C2 (amended): the last data row is exempt from the field-count and drift
checks, but it must still start with `Tag=` and carry parseable timestamp and
interval fields (or be blank): replacing the last row of any accepted log by
any row satisfying `rowStructOk true` keeps the validator's answer `true`,
whatever that row's length, timestamp or interval. -/
theorem c2_last_row_exemption (lines : List String) (r r' : String) (expInt : Frac)
    (h5 : 5 ≤ lines.length)
    (h : check_hdr_file_valid (some (lines ++ [r])) expInt = true)
    (hr' : rowStructOk true r' = true) :
    check_hdr_file_valid (some (lines ++ [r'])) expInt = true := by
  rw [check_hdr_some_iff] at h ⊢
  obtain ⟨hlen, hhdr, hstruct, hclaim⟩ := h
  have hdropr : (lines ++ [r]).drop 4 = lines.drop 4 ++ [r] :=
    List.drop_append_of_le_length (by omega)
  have hdropr' : (lines ++ [r']).drop 4 = lines.drop 4 ++ [r'] :=
    List.drop_append_of_le_length (by omega)
  have hlen4 : (lines.drop 4).length = lines.length - 4 := List.length_drop 4 lines
  rw [hdropr] at hstruct hclaim
  rw [show ((lines.drop 4) ++ [r]).length = (lines.drop 4).length + 1 by simp] at hstruct hclaim
  refine ⟨by simp; omega, ?_, ?_, ?_⟩
  · rw [hdr_headers_ok_append lines r' (by omega)]
    rw [hdr_headers_ok_append lines r (by omega)] at hhdr
    exact hhdr
  · rw [hdropr', show ((lines.drop 4) ++ [r']).length = (lines.drop 4).length + 1 by simp]
    exact rowsStructOk_replace_last _ r r' hr' (lines.drop 4) 0 (by omega) hstruct
  · rw [hdropr', show ((lines.drop 4) ++ [r']).length = (lines.drop 4).length + 1 by simp]
    exact rowsClaimOk_replace_last _ _ r r' hr' (lines.drop 4) 0 none (by omega) (by omega) hclaim

/-- C2 (counterexample): the claim as stated is false.  Two logs with a valid
header and identical valid non-last rows: with the truncated 3-field last row
`Tag=write,99,99` the validator answers `true` (the exemption), but with the
2-field last row `Tag=write,99` — fewer than 4 comma-separated fields, which
the claim says cannot by itself cause a false result — it answers `false`
(the missing interval field hits the exception handler). -/
theorem c2_counterexample :
    check_hdr_file_valid
      (some (hdrHeaderLines ++ ["Tag=write,1,1,0", "Tag=write,2,1,0", "Tag=write,99"]))
      fracOne = false ∧
    check_hdr_file_valid
      (some (hdrHeaderLines ++ ["Tag=write,1,1,0", "Tag=write,2,1,0", "Tag=write,99,99"]))
      fracOne = true := by
  exact ⟨by decide, by decide⟩

/-- Witness for C2: the amended theorem applied to a concrete log, replacing
last row `Tag=write,3,1,0` by the truncated `Tag=write,99,99`. -/
theorem c2_last_row_exemption_witness :
    check_hdr_file_valid
      (some ((hdrHeaderLines ++ ["Tag=write,1,1,0", "Tag=write,2,1,0"]) ++ ["Tag=write,99,99"]))
      fracOne = true :=
  c2_last_row_exemption (hdrHeaderLines ++ ["Tag=write,1,1,0", "Tag=write,2,1,0"])
    "Tag=write,3,1,0" "Tag=write,99,99" fracOne (by decide) (by decide) (by decide)

/-- C3 (amended): for every file, the validator answers `true` iff the file
has at least 5 lines, the 4 header substrings are present, every data row is
structurally well-formed (`rowsStructOk`: Tag= prefix, at least 4 fields for
non-last rows, parseable fields 2 and 3), and the numeric conditions of the
claim hold (`rowsClaimOk`: first timestamp within 0.1 of the expected
interval, each subsequent non-last timestamp within 0.1 of the previous
timestamp plus the expected interval — the cadence is the expected interval
itself — and each non-last reported interval within 0.1 of the expected
interval); moreover a synthetic log of 5 rows spaced exactly at interval 1
validates as `true`. -/
theorem c3_hdr_validator_characterization :
    (∀ (lines : List String) (expInt : Frac),
      check_hdr_file_valid (some lines) expInt = true ↔
        (5 ≤ lines.length ∧ hdr_headers_ok lines = true ∧
         rowsStructOk (lines.drop 4).length 0 (lines.drop 4) = true ∧
         rowsClaimOk expInt (lines.drop 4).length 0 none (lines.drop 4) = true)) ∧
    check_hdr_file_valid (some syntheticHdrLog) fracOne = true :=
  ⟨check_hdr_some_iff, by decide⟩

/-- C3 (counterexample): the claimed equivalence is false as stated.  A file
with a valid 4-line header and single data row `x,1,1,0` satisfies every
numeric condition of the claim (`rowsClaimOk` is `true`), yet the validator
answers `false` because the row lacks the `Tag=` prefix — a structural check
the claim's right-hand side omits. -/
theorem c3_counterexample :
    check_hdr_file_valid (some (hdrHeaderLines ++ ["x,1,1,0"])) fracOne = false ∧
    hdr_headers_ok (hdrHeaderLines ++ ["x,1,1,0"]) = true ∧
    (hdrHeaderLines ++ ["x,1,1,0"]).drop 4 = ["x,1,1,0"] ∧
    rowsClaimOk fracOne 1 0 none ["x,1,1,0"] = true :=
  ⟨by decide, by decide, by decide, by decide⟩

/-- C4 (counterexample): a file of exactly the 4 valid header lines and zero
data rows is rejected, not accepted: the validator answers `false`. -/
theorem c4_counterexample : check_hdr_file_valid (some hdrHeaderLines) fracOne = false := by
  decide

/-- C4 (amended): a file of exactly the 4 valid header lines and zero data
rows is rejected (`false`) — the fewer-than-5-lines check fires first, so the
valid-but-empty acceptance branch is unreachable for it; a file of the 4
header lines plus one blank line is the shape actually accepted as
valid-but-empty (`true`). -/
theorem c4_header_only_file (expInt : Frac) :
    check_hdr_file_valid (some hdrHeaderLines) expInt = false ∧
    check_hdr_file_valid (some (hdrHeaderLines ++ [""])) expInt = true :=
  ⟨rfl, rfl⟩

/-- C9: the validator returns `false` for a missing file; for an existing
zero-size file; for any file of at least 5 lines one of whose 4 header lines
lacks its required substring (checked in order, line 2 included); for any
file with a non-last data row of exactly 3 comma-separated fields; for a log
whose second row's timestamp deviates by 0.2 s from the expected cadence
under the 0.1 s tolerance; and for any file in which some row's timestamp or
interval field fails to parse as a number. -/
theorem c9_validator_negative_cases :
    (∀ expInt : Frac, check_hdr_file_valid none expInt = false) ∧
    (∀ expInt : Frac, check_hdr_file_valid (some []) expInt = false) ∧
    (∀ (expInt : Frac) (lines : List String), 5 ≤ lines.length →
      (containsSub "Logged with Cql-stress".data (lines.getD 0 "").data = false ∨
       containsSub "#[StartTime:".data (lines.getD 1 "").data = false ∨
       containsSub "#[BaseTime:".data (lines.getD 2 "").data = false ∨
       containsSub "#[MaxValueDivisor:".data (lines.getD 3 "").data = false) →
      check_hdr_file_valid (some lines) expInt = false) ∧
    (∀ (expInt : Frac) (lines : List String) (j : Nat),
      j + 1 < (lines.drop 4).length →
      isBlankRow ((lines.drop 4).getD j "") = false →
      (rowParts ((lines.drop 4).getD j "")).length = 3 →
      check_hdr_file_valid (some lines) expInt = false) ∧
    check_hdr_file_valid
      (some (hdrHeaderLines ++ ["Tag=write,1,1,0", "Tag=write,2.2,1,0", "Tag=write,3.2,1,0"]))
      fracOne = false ∧
    (∀ (expInt : Frac) (lines : List String) (j : Nat) (f : List Char),
      j < (lines.drop 4).length →
      isBlankRow ((lines.drop 4).getD j "") = false →
      ((rowParts ((lines.drop 4).getD j ""))[1]? = some f ∨
       (rowParts ((lines.drop 4).getD j ""))[2]? = some f) →
      parseFrac f = none →
      check_hdr_file_valid (some lines) expInt = false) := by
  refine ⟨fun _ => rfl, fun _ => rfl, ?_, ?_, by decide, ?_⟩
  · intro expInt lines h5 hbad
    unfold check_hdr_file_valid
    have h0 : ¬ (lines.length = 0) := by omega
    have hlt : ¬ (lines.length < 5) := by omega
    have hh : hdr_headers_ok lines = false := by
      unfold hdr_headers_ok
      rcases hbad with hx | hx | hx | hx <;> simp at hx <;> simp [hx]
    simp [h0, hlt, hh]
  · intro expInt lines j hj hb h3
    cases hc : check_hdr_file_valid (some lines) expInt with
    | false => rfl
    | true =>
      exfalso
      obtain ⟨hlen, hhdr, hstruct, hclaim⟩ := (check_hdr_some_iff lines expInt).mp hc
      have hrow := rowsStructOk_getD _ _ _ hstruct j (by omega)
      have hne : ¬ (0 + j = (lines.drop 4).length - 1) := by omega
      rw [rowStructOk] at hrow
      simp [List.length_drop] at hne
      simp at hb h3
      simp [hb, h3, hne] at hrow
  · intro expInt lines j f hj hb hfield hpf
    cases hc : check_hdr_file_valid (some lines) expInt with
    | false => rfl
    | true =>
      exfalso
      obtain ⟨hlen, hhdr, hstruct, hclaim⟩ := (check_hdr_some_iff lines expInt).mp hc
      have hrow := rowsStructOk_getD _ _ _ hstruct j (by omega)
      rw [rowStructOk] at hrow
      simp at hb
      rcases hfield with h1 | h2
      · simp at h1
        simp [hb, h1, hpf] at hrow
      · simp at h2
        simp [hb, h2, hpf] at hrow

/-- Witness for C9: the quantified negative cases applied to concrete files —
a bad second header line, a 3-field non-last row, and a non-numeric
timestamp field. -/
theorem c9_validator_negative_cases_witness :
    check_hdr_file_valid
      (some ["Logged with Cql-stress", "zz", "#[BaseTime: 0", "#[MaxValueDivisor: 1",
             "Tag=write,1,1,0"]) fracOne = false ∧
    check_hdr_file_valid
      (some (hdrHeaderLines ++ ["Tag=write,1,1", "Tag=write,2,1,0"])) fracOne = false ∧
    check_hdr_file_valid
      (some (hdrHeaderLines ++ ["Tag=write,abc,1,0"])) fracOne = false :=
  ⟨c9_validator_negative_cases.2.2.1 fracOne _ (by decide) (Or.inr (Or.inl (by decide))),
   c9_validator_negative_cases.2.2.2.1 fracOne _ 0 (by decide) (by decide) (by decide),
   c9_validator_negative_cases.2.2.2.2.2 fracOne _ 0 "abc".data (by decide) (by decide)
     (Or.inl (by decide)) (by decide)⟩

/-- C1 (code evaluation): the write-and-validate scenario issues exactly four
blocking invocations — cassandra-stress write into the cassandra keyspace,
cql-stress read of it, cql-stress write into the cqlstress keyspace — but the
fourth step reads the cqlstress keyspace with cql-stress itself, not with
cassandra-stress as the scenario's own comments and the claim state. -/
theorem c1_write_and_validate_steps (ks_cassandra ks_cqlstress : String) :
    (test_cs_write_and_validate_run ks_cassandra ks_cqlstress).map StressInvocation.tool =
      [.cassandra_stress, .cql_stress, .cql_stress, .cql_stress] ∧
    (test_cs_write_and_validate_run ks_cassandra ks_cqlstress).map StressInvocation.command =
      ["write", "read", "write", "read"] ∧
    (test_cs_write_and_validate_run ks_cassandra ks_cqlstress).map StressInvocation.keyspace =
      [ks_cassandra, ks_cassandra, ks_cqlstress, ks_cqlstress] :=
  ⟨rfl, rfl, rfl⟩

/-- C5: the scoped provisioning block's teardown decision, taken once at
scope exit from the success flag: policy "always" tears down on every exit
path; "on-success" tears down iff the body completed without raising (an
exception leaves the flag unset and the container running); "never" (the
remaining policy value) never tears down. -/
theorem c5_teardown_policy (o : BodyOutcome) :
    scylla_docker_teardown "always" o = true ∧
    (scylla_docker_teardown "on-success" o = true ↔ o = .completed) ∧
    scylla_docker_teardown "never" o = false := by
  cases o <;> exact ⟨by decide, by decide, by decide⟩

lemma wait_attempts_le (results : List AttemptResult) :
    wait_attempts results ≤ results.length := by
  induction results with
  | nil => simp [wait_attempts]
  | cons r rest ih =>
    cases r with
    | ok => simp [wait_attempts]
    | failed => simp [wait_attempts]; omega
    | interrupt => simp [wait_attempts]

lemma wait_timedOut_iff (results : List AttemptResult) :
    wait_until_scylla_responds results = .timedOut ↔ ∀ r ∈ results, r = .failed := by
  induction results with
  | nil => simp [wait_until_scylla_responds]
  | cons r rest ih => cases r <;> simp [wait_until_scylla_responds, ih]

lemma wait_first_result (results : List AttemptResult) :
    ∀ k, k < results.length →
    (∀ j, j < k → results.getD j .failed = .failed) →
    ((results.getD k .failed = .ok →
       wait_until_scylla_responds results = .responded ∧ wait_attempts results = k + 1) ∧
     (results.getD k .failed = .interrupt →
       wait_until_scylla_responds results = .interrupted ∧ wait_attempts results = k + 1)) := by
  induction results with
  | nil => intro k hk; simp at hk
  | cons r rest ih =>
    intro k hk hprev
    cases k with
    | zero =>
      constructor
      · intro hok
        simp only [List.getD_cons_zero] at hok
        subst hok
        exact ⟨rfl, rfl⟩
      · intro hint
        simp only [List.getD_cons_zero] at hint
        subst hint
        exact ⟨rfl, rfl⟩
    | succ k' =>
      have hr : r = .failed := by simpa using hprev 0 (by omega)
      subst hr
      have hrest := ih k' (by simpa using hk)
        (fun j hj => by simpa using hprev (j + 1) (by omega))
      constructor
      · intro hok
        have h2 := hrest.1 (by simpa using hok)
        exact ⟨by simpa [wait_until_scylla_responds] using h2.1,
               by simp [wait_attempts, h2.2]⟩
      · intro hint
        have h2 := hrest.2 (by simpa using hint)
        exact ⟨by simpa [wait_until_scylla_responds] using h2.1,
               by simp [wait_attempts, h2.2]⟩

/-- C6: the readiness-polling loop over a configured maximum number of
attempts (the length of `results`) starts at most that many query attempts;
it raises the distinct "didn't start responding" timeout error iff every
attempt fails; if the first non-failing attempt succeeds it returns
immediately, having used exactly that many attempts; and a KeyboardInterrupt
during an attempt propagates immediately, with no further attempt started. -/
theorem c6_readiness_polling (results : List AttemptResult) :
    wait_attempts results ≤ results.length ∧
    (wait_until_scylla_responds results = .timedOut ↔ ∀ r ∈ results, r = .failed) ∧
    (∀ k, k < results.length →
      (∀ j, j < k → results.getD j .failed = .failed) →
      ((results.getD k .failed = .ok →
         wait_until_scylla_responds results = .responded ∧ wait_attempts results = k + 1) ∧
       (results.getD k .failed = .interrupt →
         wait_until_scylla_responds results = .interrupted ∧ wait_attempts results = k + 1))) :=
  ⟨wait_attempts_le results, wait_timedOut_iff results, wait_first_result results⟩

/-- Witness for C6: concrete attempt sequences — success on the second
attempt returns after exactly 2 attempts, an interrupt on the second attempt
propagates, and all attempts failing times out. -/
theorem c6_readiness_polling_witness :
    wait_until_scylla_responds [.failed, .ok, .failed] = .responded ∧
    wait_attempts [.failed, .ok, .failed] = 2 ∧
    wait_until_scylla_responds [.failed, .interrupt, .failed] = .interrupted ∧
    wait_until_scylla_responds [.failed, .failed] = .timedOut :=
  ⟨((c6_readiness_polling [.failed, .ok, .failed]).2.2 1 (by decide) (by decide)).1 (by decide)
     |>.1,
   ((c6_readiness_polling [.failed, .ok, .failed]).2.2 1 (by decide) (by decide)).1 (by decide)
     |>.2,
   ((c6_readiness_polling [.failed, .interrupt, .failed]).2.2 1 (by decide) (by decide)).2
     (by decide) |>.1,
   (c6_readiness_polling [.failed, .failed]).2.1.mpr (by decide)⟩

lemma ks_name_ne (s : String) : "ks_cassandra_" ++ s ≠ "ks_cqlstress_" ++ s := by
  intro he
  have hd : ("ks_cassandra_" ++ s).data = ("ks_cqlstress_" ++ s).data :=
    congrArg String.data he
  rw [String.data_append, String.data_append] at hd
  have h2 : "ks_cassandra_".data = "ks_cqlstress_".data :=
    List.append_inj_left hd (by decide)
  exact absurd h2 (by decide)

/-- C10: for every random draw `r` and clock string `now`, the generated
keyspace pair embeds the same random integer and the same timestamp string in
both names, which differ only in their fixed prefixes "ks_cassandra_" and
"ks_cqlstress_"; consequently the two names are always distinct and always
non-empty. -/
theorem c10_generate_random_keyspaces (r : Nat) (now : String) :
    (generate_random_keyspaces r now).ks_cassandra =
      "ks_cassandra_" ++ (toString r ++ "_" ++ now) ∧
    (generate_random_keyspaces r now).ks_cqlstress =
      "ks_cqlstress_" ++ (toString r ++ "_" ++ now) ∧
    (generate_random_keyspaces r now).ks_cassandra ≠
      (generate_random_keyspaces r now).ks_cqlstress ∧
    (generate_random_keyspaces r now).ks_cassandra ≠ "" ∧
    (generate_random_keyspaces r now).ks_cqlstress ≠ "" :=
  ⟨rfl, rfl, ks_name_ne (toString r ++ "_" ++ now),
   append_ne_of_head_ne "ks_cassandra_" (toString r ++ "_" ++ now) "" 'k' (by decide) (by decide),
   append_ne_of_head_ne "ks_cqlstress_" (toString r ++ "_" ++ now) "" 'k' (by decide) (by decide)⟩

lemma count_log_throttle_clause (t : Option String) :
    (throttle_clause t).count "-log" = 0 := by
  cases t with
  | none => rfl
  | some s =>
    unfold throttle_clause
    by_cases hs : (s == "") = true
    · simp [hs]
    · rw [Bool.not_eq_true] at hs
      simp [hs, List.count_cons, List.count_nil]
      exact append_ne_of_head_ne "throttle=" s "-log" 't' (by decide) (by decide)

/-- C7 (counterexample): with `throttle` set to the empty string — which is
not None — the built argument vector contains no throttle sub-clause, because
the code guards on Python truthiness, not on is-not-None. -/
theorem c7_counterexample :
    ((⟨100, 2, none, fracOne, some ""⟩ : CSCliRuntimeArguments).throttle ≠ none) ∧
    prepare_args "write" "127.0.0.1" "ks1" ⟨100, 2, none, fracOne, some ""⟩ =
      ["write", "no-warmup", "n=100", "-node", "127.0.0.1", "-rate", "threads=2",
       "-schema", "keyspace=ks1"] :=
  ⟨by decide, by decide⟩

/-- C7 (amended): for every RuntimeArguments value (and command/node strings
that are not themselves the literal "-rate"), the built argument vector
contains exactly one "-rate" flag, immediately followed by the
`threads=<concurrency>` argument and the throttle clause; the throttle
sub-clause is `throttle=<throttle>` when the throttle field is truthy (a
non-empty string) and absent when it is falsy (None or empty). -/
theorem c7_rate_clause (c n k : String) (ra : CSCliRuntimeArguments)
    (hc : c ≠ "-rate") (hn : n ≠ "-rate") :
    (prepare_args c n k ra).count "-rate" = 1 ∧
    prepare_args c n k ra =
      [c, "no-warmup", "n=" ++ toString ra.workload_size, "-node", n] ++
      (["-rate", "threads=" ++ toString ra.concurrency] ++ throttle_clause ra.throttle) ++
      (["-schema", "keyspace=" ++ k] ++ log_clause ra) ∧
    (optTruthy ra.throttle = true →
      throttle_clause ra.throttle = ["throttle=" ++ ra.throttle.getD ""]) ∧
    (optTruthy ra.throttle = false → throttle_clause ra.throttle = []) := by
  refine ⟨?_, by simp [prepare_args], ?_, ?_⟩
  · have e1 : ("no-warmup" == "-rate") = false := by decide
    have e2 : (("n=" ++ toString ra.workload_size) == "-rate") = false :=
      beq_eq_false_iff_ne.mpr
        (append_ne_of_head_ne "n=" (toString ra.workload_size) "-rate" 'n' (by decide) (by decide))
    have e3 : ("-node" == "-rate") = false := by decide
    have e4 : (("threads=" ++ toString ra.concurrency) == "-rate") = false :=
      beq_eq_false_iff_ne.mpr
        (append_ne_of_head_ne "threads=" (toString ra.concurrency) "-rate" 't' (by decide) (by decide))
    have e5 : ("-schema" == "-rate") = false := by decide
    have e6 : (("keyspace=" ++ k) == "-rate") = false :=
      beq_eq_false_iff_ne.mpr
        (append_ne_of_head_ne "keyspace=" k "-rate" 'k' (by decide) (by decide))
    have e7 : (c == "-rate") = false := beq_eq_false_iff_ne.mpr hc
    have e8 : (n == "-rate") = false := beq_eq_false_iff_ne.mpr hn
    have e9 : ("-rate" == "-rate") = true := by decide
    simp [prepare_args, List.count_append, List.count_cons, List.count_nil,
          e1, e2, e3, e4, e5, e6, e7, e8, e9,
          count_rate_throttle_clause, count_rate_log_clause]
  · intro ht
    cases hth : ra.throttle with
    | none => rw [hth] at ht; simp [optTruthy] at ht
    | some s =>
      rw [hth] at ht
      have hse : (s == "") = false := by simpa [optTruthy] using ht
      simp [throttle_clause, hse]
  · intro ht
    cases hth : ra.throttle with
    | none => rfl
    | some s =>
      rw [hth] at ht
      have hse : (s == "") = true := by simpa [optTruthy] using ht
      simp [throttle_clause, hse]

/-- Witness for C7: the amended rate-clause theorem at a concrete argument
record with a non-empty throttle. -/
theorem c7_rate_clause_witness :
    (prepare_args "write" "127.0.0.1" "ks1"
        ⟨100, 2, none, fracOne, some "50/s"⟩).count "-rate" = 1 ∧
    prepare_args "write" "127.0.0.1" "ks1" ⟨100, 2, none, fracOne, some "50/s"⟩ =
      ["write", "no-warmup", "n=" ++ toString (100 : Nat), "-node", "127.0.0.1"] ++
      (["-rate", "threads=" ++ toString (2 : Nat)] ++ throttle_clause (some "50/s")) ++
      (["-schema", "keyspace=" ++ "ks1"] ++
        log_clause ⟨100, 2, none, fracOne, some "50/s"⟩) ∧
    (optTruthy (some "50/s") = true →
      throttle_clause (some "50/s") = ["throttle=" ++ (some "50/s").getD ""]) ∧
    (optTruthy (some "50/s") = false → throttle_clause (some "50/s") = []) :=
  c7_rate_clause "write" "127.0.0.1" "ks1" ⟨100, 2, none, fracOne, some "50/s"⟩
    (by decide) (by decide)

/-- C8: with an hdr_log_file configured (a non-empty path), the built
argument vector ends with the logging clause `-log hdrfile=<file>`, extended
by `interval=<log_interval>` exactly when the interval differs from the
default of 1; with no hdr_log_file, the logging clause is empty and no "-log"
flag appears anywhere in the vector. -/
theorem c8_hdr_log_clause (c n k : String) (ra : CSCliRuntimeArguments)
    (hcl : c ≠ "-log") (hnl : n ≠ "-log") :
    (∀ f, ra.hdr_log_file = some f → f ≠ "" →
      prepare_args c n k ra =
        [c, "no-warmup", "n=" ++ toString ra.workload_size, "-node", n,
         "-rate", "threads=" ++ toString ra.concurrency] ++ throttle_clause ra.throttle ++
        ["-schema", "keyspace=" ++ k, "-log", "hdrfile=" ++ f] ++
        (if fEq ra.log_interval fracOne then [] else ["interval=" ++ fracStr ra.log_interval]) ∧
      ((if fEq ra.log_interval fracOne then ([] : List String)
          else ["interval=" ++ fracStr ra.log_interval]) = [] ↔
        fEq ra.log_interval fracOne = true)) ∧
    (ra.hdr_log_file = none → log_clause ra = [] ∧ (prepare_args c n k ra).count "-log" = 0) := by
  constructor
  · intro f hf hne
    have hbeq : (f == "") = false := beq_eq_false_iff_ne.mpr hne
    constructor
    · simp [prepare_args, log_clause, hf, hbeq]
    · by_cases hq : fEq ra.log_interval fracOne = true
      · simp [hq]
      · rw [Bool.not_eq_true] at hq
        simp [hq]
  · intro hf
    refine ⟨by simp [log_clause, hf], ?_⟩
    have e1 : ("no-warmup" == "-log") = false := by decide
    have e2 : (("n=" ++ toString ra.workload_size) == "-log") = false :=
      beq_eq_false_iff_ne.mpr
        (append_ne_of_head_ne "n=" (toString ra.workload_size) "-log" 'n' (by decide) (by decide))
    have e3 : ("-node" == "-log") = false := by decide
    have e4 : (("threads=" ++ toString ra.concurrency) == "-log") = false :=
      beq_eq_false_iff_ne.mpr
        (append_ne_of_head_ne "threads=" (toString ra.concurrency) "-log" 't' (by decide) (by decide))
    have e5 : ("-schema" == "-log") = false := by decide
    have e6 : (("keyspace=" ++ k) == "-log") = false :=
      beq_eq_false_iff_ne.mpr
        (append_ne_of_head_ne "keyspace=" k "-log" 'k' (by decide) (by decide))
    have e7 : (c == "-log") = false := beq_eq_false_iff_ne.mpr hcl
    have e8 : (n == "-log") = false := beq_eq_false_iff_ne.mpr hnl
    have e9 : ("-rate" == "-log") = false := by decide
    simp [prepare_args, log_clause, hf, List.count_append, List.count_cons, List.count_nil,
          e1, e2, e3, e4, e5, e6, e7, e8, e9, count_log_throttle_clause]

/-- Witness for C8: the logging-clause theorem at a concrete record with
`hdr_log_file = some "out.hdr"` and interval 2. -/
theorem c8_hdr_log_clause_witness :
    prepare_args "write" "127.0.0.1" "ks1" ⟨100, 1, some "out.hdr", ⟨2, 1⟩, none⟩ =
      ["write", "no-warmup", "n=" ++ toString (100 : Nat), "-node", "127.0.0.1",
       "-rate", "threads=" ++ toString (1 : Nat)] ++ throttle_clause none ++
      ["-schema", "keyspace=" ++ "ks1", "-log", "hdrfile=" ++ "out.hdr"] ++
      (if fEq (⟨2, 1⟩ : Frac) fracOne then []
       else ["interval=" ++ fracStr (⟨2, 1⟩ : Frac)]) :=
  ((c8_hdr_log_clause "write" "127.0.0.1" "ks1" ⟨100, 1, some "out.hdr", ⟨2, 1⟩, none⟩
      (by decide) (by decide)).1 "out.hdr" rfl (by decide)).1
